import Mathlib

/-
  Verification of the build-configuration script
  src/rollup-app-vendors-sass-serve/gulpfile.js against its design
  specification.

  The gulpfile is shallowly embedded: the configuration object is a
  JSON-like `Value`, the deep merge of the default configuration with the
  optional local override is the recursive `merge` below, each gulp task
  body is embedded as the list of pipeline stages it wires together, the
  error handler `onError` is a pure function from the error object to its
  observable effects, and the watch bindings are the literal
  glob-to-task-list table from the `watch` task.
-/

set_option autoImplicit false

/-- JSON-like runtime values: the shape of the gulpfile's configuration
object, of the optional `./.local` override, and of every option object the
script builds.  `vatom` stands for opaque non-mergeable JS values (the
RegExp literal and the snippet function inside the default `browsersync`
options); the deep merge treats them, like every non-object, atomically. -/
inductive Value where
  | vbool : Bool → Value
  | vnum : Int → Value
  | vstr : String → Value
  | vatom : String → Value
  | varr : List Value → Value
  | vobj : List (String × Value) → Value

/-- First binding of a key in an association list of object fields. -/
def lookup : String → List (String × Value) → Option Value
  | _, [] => none
  | k, (q, v) :: rest => if q = k then some v else lookup k rest

/-- Key-membership test on object fields. -/
def hasKey (k : String) (l : List (String × Value)) : Bool :=
  (lookup k l).isSome

/-- Field access on a value: `getField c k` is JS `c[k]` for plain objects. -/
def getField (c : Value) (k : String) : Option Value :=
  match c with
  | .vobj fs => lookup k fs
  | _ => none

/-- String-valued configuration option (the gulpfile reads
`config.sassSource`, `config.appSource`, `config.jsSource` as strings). -/
def getS (c : Value) (k : String) : String :=
  match getField c k with
  | some (.vstr s) => s
  | _ => ""

/-- Boolean configuration option under JS truthiness: a missing key is
falsy (the gulpfile reads `config.sourcemaps`). -/
def getB (c : Value) (k : String) : Bool :=
  match getField c k with
  | some (.vbool b) => b
  | _ => false

/-- String-list configuration option (the gulpfile passes
`config.supportedBrowsers`, an array of query strings). -/
def getSL (c : Value) (k : String) : List String :=
  match getField c k with
  | some (.varr l) => l.filterMap (fun v => match v with | .vstr s => some s | _ => none)
  | _ => []

/-- Values found by `lookup` are smaller than the field list holding them;
needed to justify termination of the recursive deep merge. -/
theorem sizeOf_lookup {k : String} {l : List (String × Value)} {v : Value}
    (h : lookup k l = some v) : sizeOf v < sizeOf l := by
  induction l with
  | nil => simp [lookup] at h
  | cons p rest ih =>
    obtain ⟨q, w⟩ := p
    by_cases hq : q = k
    · simp [lookup, hq] at h
      subst h
      simp
      omega
    · simp [lookup, hq] at h
      have := ih h
      simp
      omega

/-- Fields of the override that introduce keys absent from the defaults;
they are appended after the merged default fields. -/
def newFields (a b : List (String × Value)) : List (String × Value) :=
  b.filter (fun p => !hasKey p.1 a)

mutual

/-- Modelled from the spec: the recursive deep merge performed by the
external lodash `_.merge(defaults, local)` call at gulpfile.js:54 (lodash
itself is a dependency, not part of this repository).  Merge policy as
specified: for a key present in both mappings, two object values merge
recursively and otherwise the override value replaces the default one; a
non-object on either side is replaced wholesale by the override value. -/
def merge : Value → Value → Value
  | .vobj a, .vobj b => .vobj (mergeInto a b ++ newFields a b)
  | _, o => o
termination_by d o => sizeOf d + sizeOf o
decreasing_by
  all_goals
    first
      | (have hs := sizeOf_lookup h
         simp
         omega)
      | (simp
         try omega)

/-- Merge of the override fields `b` into each default field of `a`,
keeping the defaults' order. -/
def mergeInto : List (String × Value) → List (String × Value) → List (String × Value)
  | [], _ => []
  | (k, v) :: rest, b =>
    match h : lookup k b with
    | some w => (k, merge v w) :: mergeInto rest b
    | none => (k, v) :: mergeInto rest b
termination_by a b => sizeOf a + sizeOf b
decreasing_by
  all_goals
    first
      | (have hs := sizeOf_lookup h
         simp
         omega)
      | (simp
         try omega)

end

/-- Full field list of the merge of two objects. -/
def mergeF (a b : List (String × Value)) : List (String × Value) :=
  mergeInto a b ++ newFields a b

/-- Object-ness test, used to state the merge policy. -/
def isObjB : Value → Bool
  | .vobj _ => true
  | _ => false

mutual

/-- Well-formed value: every object reachable through object fields has
pairwise-distinct keys, as JS object literals do. -/
def wf : Value → Bool
  | .vobj fs => nodupKeysF fs && wfFields fs
  | _ => true

/-- Keys of an object field list are pairwise distinct. -/
def nodupKeysF : List (String × Value) → Bool
  | [] => true
  | (k, _) :: rest => !hasKey k rest && nodupKeysF rest

/-- All field values of an object are well-formed. -/
def wfFields : List (String × Value) → Bool
  | [] => true
  | (_, v) :: rest => wf v && wfFields rest

end

/-- Field list of the default configuration object literal at
gulpfile.js:54-83.  The RegExp literal and the snippet function inside
`browsersync.snippetOptions` are opaque atoms. -/
def defaultConfigFields : List (String × Value) :=
  [ ("sourcemaps", .vbool true),
    ("sassSource", .vstr "./resources/assets/sass"),
    ("appSource", .vstr "./resources/assets/app"),
    ("jsSource", .vstr "./resources/assets/js"),
    ("browsersync", .vobj
      [ ("open", .vbool false),
        ("notify", .vbool false),
        ("snippetOptions", .vobj
          [ ("rule", .vobj
            [ ("match", .vatom "regex: body close tag, case-insensitive"),
              ("fn", .vatom "function: append snippet before match") ]) ]) ]),
    ("supportedBrowsers", .varr
      [ .vstr "iOS 9", .vstr "ie >= 10", .vstr "last 2 Chrome versions" ]) ]

/-- Default configuration object of the gulpfile. -/
def defaultConfig : Value := .vobj defaultConfigFields

/-- Local override as loaded at gulpfile.js:41-48: `local` starts as `{}`
and the `try require('./.local')` either finds the override value or, on
any load failure, leaves `{}` in place; absence is never an error. -/
def loadLocal (found : Option Value) : Value :=
  found.getD (.vobj [])

/-- Effective merged configuration of a run, gulpfile.js:54:
`_.merge(defaults, local)`. -/
def effectiveConfig (found : Option Value) : Value :=
  merge defaultConfig (loadLocal found)

/-- Effective configuration for a present override object `o`. -/
def configOf (o : Value) : Value :=
  merge defaultConfig o

mutual

/-- Modelled from the spec: `JSON.stringify` of the local override object
as used at gulpfile.js:164 (a runtime primitive, not repository code).
String escaping is elided — the configuration strings involved contain no
characters needing escapes — and opaque atoms render as `null`. -/
def jsonStringify : Value → String
  | .vbool b => if b then "true" else "false"
  | .vnum n => toString n
  | .vstr s => "\"" ++ s ++ "\""
  | .vatom _ => "null"
  | .varr l => "[" ++ jsonElems l ++ "]"
  | .vobj fs => "\x7b" ++ jsonFields fs ++ "\x7d"

/-- Comma-separated serialization of array elements. -/
def jsonElems : List Value → String
  | [] => ""
  | [v] => jsonStringify v
  | v :: rest => jsonStringify v ++ "," ++ jsonElems rest

/-- Comma-separated serialization of object fields. -/
def jsonFields : List (String × Value) → String
  | [] => ""
  | [(k, v)] => "\"" ++ k ++ "\":" ++ jsonStringify v
  | (k, v) :: rest => "\"" ++ k ++ "\":" ++ jsonStringify v ++ "," ++ jsonFields rest

end

/-- Modelled from the spec: the token substitution done by the external
rollup replace plugin replaces every occurrence of the token in the source
text.  Fuel-indexed scan over the characters; each step consumes at least
one character, so the text length is sufficient fuel. -/
def replaceChars (pat rep : List Char) : Nat → List Char → List Char
  | 0, s => s
  | _ + 1, [] => []
  | fuel + 1, c :: rest =>
    if pat.isPrefixOf (c :: rest) && !pat.isEmpty then
      rep ++ replaceChars pat rep fuel (List.drop (pat.length - 1) rest)
    else
      c :: replaceChars pat rep fuel rest

/-- Replacement of every occurrence of `pat` in `s` by `rep`. -/
def replaceToken (pat rep s : String) : String :=
  String.mk (replaceChars pat.data rep.data s.data.length s.data)

/-- Application of a replace-plugin value table to a source text. -/
def applyReplaceValues (values : List (String × String)) (src : String) : String :=
  values.foldl (fun s kv => replaceToken kv.1 kv.2 s) src

-- Pipeline embedding: each gulp task body becomes the list of stages it
-- pipes together, in source order.

/-- Options of the rollup html plugin, gulpfile.js:155-162. -/
structure HtmlPluginOptions where
  includeGlob : String
  collapseWhitespace : Bool
  collapseBooleanAttributes : Bool
  conservativeCollapse : Bool

/-- Options of the rollup replace plugin, gulpfile.js:163-166. -/
structure ReplacePluginOptions where
  values : List (String × String)
  excludeGlob : String

/-- Options of the rollup node-resolve plugin; `preferBuiltins` is `none`
where the gulpfile omits the key. -/
structure NodeResolveOptions where
  browser : Bool
  preferBuiltins : Option Bool

/-- Options of the rollup commonjs plugin, gulpfile.js:200-206. -/
structure CommonjsOptions where
  includePatterns : List String
  sourceMap : Bool

/-- Rollup plugins the gulpfile configures, in a task's plugin order. -/
inductive RollupPlugin where
  | htmlPlugin (opts : HtmlPluginOptions)
  | replacePlugin (opts : ReplacePluginOptions)
  | nodeResolvePlugin (opts : NodeResolveOptions)
  | bublePlugin
  | commonjsPlugin (opts : CommonjsOptions)

/-- Options passed to rollup-stream by the `app` and `vendors` tasks. -/
structure RollupOptions where
  entry : String
  format : String
  moduleName : String
  sourceMap : Bool
  plugins : List RollupPlugin

/-- Options passed to gulp-sass, gulpfile.js:243-249. -/
structure SassOptions where
  includePaths : List String
  outputStyle : String
  precision : String

/-- One stage of a gulp pipeline as wired by the gulpfile. -/
inductive Stage where
  | rollupStage (opts : RollupOptions)
  | errorHook
  | vinylSource (file : String)
  | vinylBuffer
  | sourcemapsInit
  | sourcemapsWrite (dir : String)
  | gulpSrc (glob : String)
  | sassStage (opts : SassOptions)
  | autoprefixerStage (browsers : List String)
  | cssoStage (restructure : Bool)
  | gulpDest (dir : String)

/-- Rollup options built by the `app` task, gulpfile.js:149-172; `localv`
is the raw local override object (not the merged configuration), exactly
as `JSON.stringify(local)` uses it. -/
def appRollupOptions (c localv : Value) : RollupOptions :=
  { entry := getS c "appSource" ++ "/" ++ "app.js",
    format := "iife",
    moduleName := "app.js",
    sourceMap := getB c "sourcemaps",
    plugins :=
      [ .htmlPlugin
          { includeGlob := getS c "appSource" ++ "/**/*.html",
            collapseWhitespace := true,
            collapseBooleanAttributes := true,
            conservativeCollapse := true },
        .replacePlugin
          { values := [("ENV_LOCAL", jsonStringify localv)],
            excludeGlob := "./node_modules/**" },
        .nodeResolvePlugin { browser := true, preferBuiltins := none },
        .bublePlugin ] }

/-- Pipeline of the `app` task, gulpfile.js:174-181. -/
def appPipeline (c localv : Value) : List Stage :=
  [ .rollupStage (appRollupOptions c localv),
    .errorHook,
    .vinylSource "app.js",
    .vinylBuffer,
    .sourcemapsInit,
    .sourcemapsWrite ".",
    .gulpDest "./public/js" ]

/-- Rollup options built by the `vendors` task, gulpfile.js:190-209. -/
def vendorsRollupOptions (c : Value) : RollupOptions :=
  { entry := getS c "jsSource" ++ "/" ++ "vendors.js",
    format := "iife",
    moduleName := "vendors.js",
    sourceMap := getB c "sourcemaps",
    plugins :=
      [ .nodeResolvePlugin { browser := true, preferBuiltins := some false },
        .commonjsPlugin
          { includePatterns := ["node_modules/**", getS c "jsSource" ++ "/**"],
            sourceMap := getB c "sourcemaps" },
        .bublePlugin ] }

/-- Pipeline of the `vendors` task, gulpfile.js:211-218. -/
def vendorsPipeline (c : Value) : List Stage :=
  [ .rollupStage (vendorsRollupOptions c),
    .errorHook,
    .vinylSource "vendors.js",
    .vinylBuffer,
    .sourcemapsInit,
    .sourcemapsWrite ".",
    .gulpDest "./public/js" ]

/-- Pipeline of the `sass` task, gulpfile.js:251-260, with the option
objects built at gulpfile.js:229-249. -/
def sassPipeline (c : Value) : List Stage :=
  [ .gulpSrc (getS c "sassSource" ++ "/**/*.scss"),
    .sourcemapsInit,
    .sassStage
      { includePaths := ["node_modules"],
        outputStyle := "compressed",
        precision := "2" },
    .errorHook,
    .autoprefixerStage (getSL c "supportedBrowsers"),
    .errorHook,
    .cssoStage false,
    .errorHook,
    .sourcemapsWrite "./",
    .gulpDest "./public/css" ]

/-- Source-map finalization stage test. -/
def isSmWriteStage : Stage → Bool
  | .sourcemapsWrite _ => true
  | _ => false

/-- Does a pipeline contain a source-map finalization stage at all? -/
def hasSmWrite (p : List Stage) : Bool :=
  p.any isSmWriteStage

/-- Destination directories a pipeline writes to, in stage order. -/
def destDirs (p : List Stage) : List String :=
  p.filterMap (fun s => match s with | .gulpDest d => some d | _ => none)

/-- Input globs a pipeline reads, in stage order. -/
def srcGlobs (p : List Stage) : List String :=
  p.filterMap (fun s => match s with | .gulpSrc g => some g | _ => none)

-- Error handler embedding.

/-- Error object delivered to the handler: the handler only reads
`error.message`. -/
structure ErrObj where
  message : String

/-- Observable effects of one handler invocation. -/
structure HandlerResult where
  loggedLines : List String
  endEmitted : Bool
  thrown : Bool

/-- Error handler `onError`, gulpfile.js:94-97: logs one formatted line
built from the error message (colorization elided) and emits `end` on the
receiving stream; it never throws. -/
def onError (error : ErrObj) : HandlerResult :=
  { loggedLines := ["  ERROR " ++ " " ++ error.message],
    endEmitted := true,
    thrown := false }

/-- Outcome of one pipeline run. -/
inductive TaskOutcome where
  | completed
  | endedAfterError (diagnostics : List String)

/-- Modelled from the spec: a gulp stream on which `onError` handles the
error event ends gracefully instead of crashing the process, so a run
either completes or ends with the handler's diagnostics. -/
def runPipelineWith : Option ErrObj → TaskOutcome
  | none => .completed
  | some e => .endedAfterError (onError e).loggedLines

/-- Modelled from the spec: sibling tasks run as independent streams, so
each task's outcome depends only on its own error event. -/
def runSiblings (errs : List (Option ErrObj)) : List TaskOutcome :=
  errs.map runPipelineWith

-- Watcher embedding.

/-- One watch binding of the `watch` task: glob patterns and the tasks to
re-run, gulpfile.js:110-125. -/
structure WatchBinding where
  globs : List String
  run : List String

/-- Watch bindings registered by the `watch` task, in source order. -/
def watchBindings (c : Value) : List WatchBinding :=
  [ { globs := [getS c "sassSource" ++ "/**/*.scss"], run := ["sass"] },
    { globs := [getS c "appSource" ++ "/**/*.js", getS c "appSource" ++ "/**/*.html"],
      run := ["app"] },
    { globs := [getS c "jsSource" ++ "/**/*.js"], run := ["vendors"] } ]

/-- Splitting of a character list around the first occurrence of a marker:
`splitMarker m l = some (pre, suf)` when `l = pre ++ m ++ suf` at the first
occurrence of `m`. -/
def splitMarker (marker : List Char) : List Char → Option (List Char × List Char)
  | [] => none
  | c :: rest =>
    if marker.isPrefixOf (c :: rest) then
      some ([], List.drop marker.length (c :: rest))
    else
      match splitMarker marker rest with
      | some (pre, suf) => some (c :: pre, suf)
      | none => none

/-- Modelled from the spec: glob matching of the external file watcher,
restricted to the two pattern shapes this gulpfile uses — patterns of the
shape `base/**/*.ext`, which match any path under `base` with extension
`.ext`, and literal paths, which match only themselves. -/
def globMatch (g p : String) : Bool :=
  match splitMarker "/**/*.".data g.data with
  | some (base, ext) =>
      (base ++ "/".data).isPrefixOf p.data
        && ("." ++ String.mk ext).data.reverse.isPrefixOf p.data.reverse
  | none => g == p

/-- Does a binding match a changed path? -/
def bindingMatches (b : WatchBinding) (p : String) : Bool :=
  b.globs.any (fun g => globMatch g p)

/-- Modelled from the spec: on a change event the watcher re-runs exactly
the tasks of the bindings whose glob patterns match the changed path. -/
def triggeredTasks (c : Value) (p : String) : List String :=
  ((watchBindings c).filter (fun b => bindingMatches b p)).flatMap (fun b => b.run)

/-- Paths observed by the browser-reload watch binding, gulpfile.js:127-131:
a literal three-element array, built without reading the configuration. -/
def reloadWatchPaths (c : Value) : List String :=
  ["./public/js/app.js", "./public/js/vendors.js", "./public/css/app.css"]

/-- Modelled from the spec: the reload binding watches literal paths, so a
change event triggers `browserSync.reload` exactly when the changed path is
one of the watched literals. -/
def reloadTriggered (c : Value) (p : String) : Bool :=
  (reloadWatchPaths c).contains p

-- Basic rewriting interface for the deep merge.

theorem merge_obj (a b : List (String × Value)) :
    merge (.vobj a) (.vobj b) = .vobj (mergeF a b) := by
  rw [merge]
  rfl

theorem merge_nonobj {d o : Value} (h : (isObjB d && isObjB o) = false) :
    merge d o = o := by
  refine merge.eq_2 d o (fun a b hd ho => ?_)
  subst hd
  subst ho
  simp [isObjB] at h

theorem mergeInto_nil (b : List (String × Value)) : mergeInto [] b = [] := by
  rw [mergeInto]

theorem mergeInto_cons_some {k : String} {b : List (String × Value)} {w : Value}
    (v : Value) (rest : List (String × Value)) (h : lookup k b = some w) :
    mergeInto ((k, v) :: rest) b = (k, merge v w) :: mergeInto rest b := by
  rw [mergeInto.eq_2]
  split <;> simp_all

theorem mergeInto_cons_none {k : String} {b : List (String × Value)}
    (v : Value) (rest : List (String × Value)) (h : lookup k b = none) :
    mergeInto ((k, v) :: rest) b = (k, v) :: mergeInto rest b := by
  rw [mergeInto.eq_2]
  split <;> simp_all

theorem lookup_append_some {k : String} {l1 : List (String × Value)} {v : Value}
    (l2 : List (String × Value)) (h : lookup k l1 = some v) :
    lookup k (l1 ++ l2) = some v := by
  induction l1 with
  | nil => simp [lookup] at h
  | cons p rest ih =>
    obtain ⟨q, w⟩ := p
    by_cases hq : q = k <;> simp [lookup, hq] at h ⊢
    · exact h
    · exact ih h

theorem lookup_append_none {k : String} {l1 : List (String × Value)}
    (l2 : List (String × Value)) (h : lookup k l1 = none) :
    lookup k (l1 ++ l2) = lookup k l2 := by
  induction l1 with
  | nil => simp
  | cons p rest ih =>
    obtain ⟨q, w⟩ := p
    by_cases hq : q = k <;> simp [lookup, hq] at h ⊢
    exact ih h

theorem lookup_mergeInto (a b : List (String × Value)) (k : String) :
    lookup k (mergeInto a b) =
      match lookup k a with
      | none => none
      | some v => some (match lookup k b with | some w => merge v w | none => v) := by
  induction a with
  | nil => simp [mergeInto_nil, lookup]
  | cons p rest ih =>
    obtain ⟨q, v⟩ := p
    cases hq : lookup q b with
    | some w =>
      rw [mergeInto_cons_some v rest hq]
      by_cases hqk : q = k
      · subst hqk
        simp [lookup, hq]
      · simp [lookup, hqk, ih]
    | none =>
      rw [mergeInto_cons_none v rest hq]
      by_cases hqk : q = k
      · subst hqk
        simp [lookup, hq]
      · simp [lookup, hqk, ih]

theorem lookup_newFields (a b : List (String × Value)) (k : String) :
    lookup k (newFields a b) = if hasKey k a then none else lookup k b := by
  induction b with
  | nil => simp [newFields, lookup]
  | cons p rest ih =>
    obtain ⟨q, w⟩ := p
    have hrest : newFields a ((q, w) :: rest) =
        if hasKey q a then newFields a rest else (q, w) :: newFields a rest := by
      simp [newFields, List.filter_cons]
      split <;> simp_all
    rw [hrest]
    by_cases hqa : hasKey q a
    · rw [if_pos hqa, ih]
      by_cases hqk : q = k
      · subst hqk
        simp [hqa]
      · simp [lookup, hqk]
    · rw [if_neg hqa]
      by_cases hqk : q = k
      · subst hqk
        simp [lookup, hqa, ih]
      · simp [lookup, hqk, ih]

theorem lookup_mergeF (a b : List (String × Value)) (k : String) :
    lookup k (mergeF a b) =
      match lookup k a with
      | some v => some (match lookup k b with | some w => merge v w | none => v)
      | none => lookup k b := by
  unfold mergeF
  cases ha : lookup k a with
  | some v =>
    have h1 : lookup k (mergeInto a b) =
        some (match lookup k b with | some w => merge v w | none => v) := by
      rw [lookup_mergeInto, ha]
    rw [lookup_append_some _ h1]
  | none =>
    have h1 : lookup k (mergeInto a b) = none := by
      rw [lookup_mergeInto, ha]
    rw [lookup_append_none _ h1, lookup_newFields]
    have h2 : hasKey k a = false := by
      unfold hasKey
      rw [ha]
      rfl
    simp [h2]

theorem mem_of_lookup {k : String} {l : List (String × Value)} {v : Value}
    (h : lookup k l = some v) : (k, v) ∈ l := by
  induction l with
  | nil => simp [lookup] at h
  | cons p rest ih =>
    obtain ⟨q, w⟩ := p
    by_cases hq : q = k
    · subst hq
      simp [lookup] at h
      subst h
      simp
    · simp [lookup, hq] at h
      exact List.mem_cons_of_mem _ (ih h)

theorem hasKey_of_mem {k : String} {v : Value} {l : List (String × Value)}
    (h : (k, v) ∈ l) : hasKey k l = true := by
  induction l with
  | nil => simp at h
  | cons p rest ih =>
    obtain ⟨q, w⟩ := p
    by_cases hq : q = k
    · simp [hasKey, lookup, hq]
    · rcases List.mem_cons.mp h with he | hm
      · cases he
        exact absurd rfl hq
      · simpa [hasKey, lookup, hq] using ih hm

theorem lookup_of_mem_nodup {l : List (String × Value)} {k : String} {v : Value}
    (hn : nodupKeysF l = true) (hm : (k, v) ∈ l) : lookup k l = some v := by
  induction l with
  | nil => simp at hm
  | cons p rest ih =>
    obtain ⟨q, w⟩ := p
    have hn2 : hasKey q rest = false ∧ nodupKeysF rest = true := by
      simpa [nodupKeysF] using hn
    rcases List.mem_cons.mp hm with he | hm2
    · cases he
      simp [lookup]
    · by_cases hq : q = k
      · subst hq
        have hk := hasKey_of_mem hm2
        rw [hk] at hn2
        simp at hn2
      · simp [lookup, hq]
        exact ih hn2.2 hm2

theorem wfFields_mem {l : List (String × Value)} {k : String} {v : Value}
    (hw : wfFields l = true) (hm : (k, v) ∈ l) : wf v = true := by
  induction l with
  | nil => simp at hm
  | cons p rest ih =>
    obtain ⟨q, w⟩ := p
    have hw2 : wf w = true ∧ wfFields rest = true := by
      simpa [wfFields] using hw
    rcases List.mem_cons.mp hm with he | hm2
    · cases he
      exact hw2.1
    · exact ih hw2.2 hm2

theorem sizeOf_mem_snd {l : List (String × Value)} {k : String} {v : Value}
    (h : (k, v) ∈ l) : sizeOf v < sizeOf l := by
  induction l with
  | nil => simp at h
  | cons p rest ih =>
    rcases List.mem_cons.mp h with he | hm
    · subst he
      simp
      omega
    · have := ih hm
      obtain ⟨q, w⟩ := p
      simp
      omega

theorem one_le_sizeOf (v : Value) : 1 ≤ sizeOf v := by
  cases v <;> simp <;> omega

theorem merge_nonobj_left {d : Value} (o : Value) (h : isObjB d = false) :
    merge d o = o := by
  refine merge_nonobj ?_
  rw [h]
  rfl

theorem merge_nonobj_right (d : Value) {o : Value} (h : isObjB o = false) :
    merge d o = o := by
  refine merge_nonobj ?_
  rw [h]
  simp

theorem mergeInto_self_aux (b : List (String × Value)) :
    ∀ a : List (String × Value),
      (∀ k v, (k, v) ∈ a → lookup k b = some v ∧ merge v v = v) →
      mergeInto a b = a := by
  intro a
  induction a with
  | nil => intro _; exact mergeInto_nil b
  | cons p rest ih =>
    intro h
    obtain ⟨q, w⟩ := p
    have hq := h q w (by simp)
    rw [mergeInto_cons_some w rest hq.1, hq.2,
      ih (fun k v hm => h k v (List.mem_cons_of_mem _ hm))]

theorem newFields_all_present (a b : List (String × Value))
    (h : ∀ k v, (k, v) ∈ b → hasKey k a = true) : newFields a b = [] := by
  induction b with
  | nil => rfl
  | cons p rest ih =>
    obtain ⟨q, w⟩ := p
    have hq := h q w (by simp)
    simp [newFields, List.filter_cons, hq]
    have := ih (fun k v hm => h k v (List.mem_cons_of_mem _ hm))
    simpa [newFields] using this

theorem merge_self_fuel : ∀ (n : Nat) (v : Value), sizeOf v ≤ n → wf v = true →
    merge v v = v := by
  intro n
  induction n with
  | zero =>
    intro v hv _
    have := one_le_sizeOf v
    omega
  | succ n ih =>
    intro v hs hw
    cases v
    case vobj fs =>
      have hwp : nodupKeysF fs = true ∧ wfFields fs = true := by
        simpa [wf] using hw
      rw [merge_obj]
      have hsz : sizeOf fs ≤ n := by
        simp at hs
        omega
      have hm1 : mergeInto fs fs = fs := by
        apply mergeInto_self_aux
        intro k v hm
        refine ⟨lookup_of_mem_nodup hwp.1 hm, ?_⟩
        have hv : sizeOf v ≤ n := by
          have := sizeOf_mem_snd hm
          omega
        exact ih v hv (wfFields_mem hwp.2 hm)
      have hm2 : newFields fs fs = [] := by
        apply newFields_all_present
        intro k v hm
        exact hasKey_of_mem hm
      rw [mergeF, hm1, hm2, List.append_nil]
    all_goals exact merge_nonobj_left _ rfl

theorem merge_self_wf (v : Value) (h : wf v = true) : merge v v = v :=
  merge_self_fuel (sizeOf v) v le_rfl h

theorem mergeInto_append (x y b : List (String × Value)) :
    mergeInto (x ++ y) b = mergeInto x b ++ mergeInto y b := by
  induction x with
  | nil => simp [mergeInto_nil]
  | cons p rest ih =>
    obtain ⟨q, w⟩ := p
    cases hq : lookup q b with
    | some u =>
      rw [List.cons_append, mergeInto_cons_some _ _ hq, mergeInto_cons_some _ _ hq,
        ih, List.cons_append]
    | none =>
      rw [List.cons_append, mergeInto_cons_none _ _ hq, mergeInto_cons_none _ _ hq,
        ih, List.cons_append]

theorem mergeInto_idem_aux (b : List (String × Value)) :
    ∀ a : List (String × Value),
      (∀ k v w, (k, v) ∈ a → lookup k b = some w →
        merge (merge v w) w = merge v w) →
      mergeInto (mergeInto a b) b = mergeInto a b := by
  intro a
  induction a with
  | nil => intro _; rw [mergeInto_nil, mergeInto_nil]
  | cons p rest ih =>
    intro h
    obtain ⟨q, v⟩ := p
    cases hq : lookup q b with
    | some w =>
      rw [mergeInto_cons_some _ _ hq, mergeInto_cons_some _ _ hq,
        h q v w (by simp) hq,
        ih (fun k x y hm hl => h k x y (List.mem_cons_of_mem _ hm) hl)]
    | none =>
      rw [mergeInto_cons_none _ _ hq, mergeInto_cons_none _ _ hq,
        ih (fun k x y hm hl => h k x y (List.mem_cons_of_mem _ hm) hl)]

theorem hasKey_mergeF {a b : List (String × Value)} {k : String}
    (h : hasKey k b = true) : hasKey k (mergeF a b) = true := by
  obtain ⟨w, hw⟩ : ∃ w, lookup k b = some w := by
    cases hb : lookup k b with
    | some w => exact ⟨w, rfl⟩
    | none => rw [hasKey, hb] at h; simp at h
  rw [hasKey, lookup_mergeF]
  cases ha : lookup k a with
  | some v => simp
  | none => rw [hw]; rfl

theorem merge_absorb_left_nonobj {d o : Value} (hd : isObjB d = false)
    (hw : wf o = true) : merge (merge d o) o = merge d o := by
  rw [merge_nonobj_left o hd]
  exact merge_self_wf o hw

theorem merge_absorb_right_nonobj {o : Value} (d : Value) (ho : isObjB o = false) :
    merge (merge d o) o = merge d o := by
  rw [merge_nonobj_right d ho, merge_nonobj_right o ho]

theorem merge_absorb_fuel : ∀ (n : Nat) (d o : Value),
    sizeOf d + sizeOf o ≤ n → wf o = true →
    merge (merge d o) o = merge d o := by
  intro n
  induction n with
  | zero =>
    intro d o hs _
    have := one_le_sizeOf d
    have := one_le_sizeOf o
    omega
  | succ n ih =>
    intro d o hs hw
    cases o
    case vobj b =>
      have hwp : nodupKeysF b = true ∧ wfFields b = true := by
        simpa [wf] using hw
      cases d
      case vobj a =>
        rw [merge_obj, merge_obj]
        congr 1
        have hnf : newFields (mergeF a b) b = [] := by
          apply newFields_all_present
          intro k v hm
          exact hasKey_mergeF (hasKey_of_mem hm)
        rw [mergeF, hnf, List.append_nil]
        show mergeInto (mergeInto a b ++ newFields a b) b
            = mergeInto a b ++ newFields a b
        rw [mergeInto_append]
        have hside : ∀ k v w, (k, v) ∈ a → lookup k b = some w →
            merge (merge v w) w = merge v w := by
          intro k v w hm hl
          have h1 : sizeOf v < sizeOf a := sizeOf_mem_snd hm
          have h2 : sizeOf w < sizeOf b := sizeOf_lookup hl
          have h3 : sizeOf v + sizeOf w ≤ n := by
            simp at hs
            omega
          exact ih v w h3 (wfFields_mem hwp.2 (mem_of_lookup hl))
        rw [mergeInto_idem_aux b a hside]
        have hself : mergeInto (newFields a b) b = newFields a b := by
          apply mergeInto_self_aux
          intro k v hm
          have hmb : (k, v) ∈ b := (List.mem_filter.mp hm).1
          exact ⟨lookup_of_mem_nodup hwp.1 hmb,
            merge_self_wf v (wfFields_mem hwp.2 hmb)⟩
        rw [hself]
      all_goals exact merge_absorb_left_nonobj rfl hw
    all_goals exact merge_absorb_right_nonobj _ rfl

theorem merge_absorb (d o : Value) (h : wf o = true) :
    merge (merge d o) o = merge d o :=
  merge_absorb_fuel (sizeOf d + sizeOf o) d o le_rfl h

theorem merge_vstr (s t : String) : merge (.vstr s) (.vstr t) = .vstr t :=
  merge_nonobj_right _ rfl

theorem merge_vbool (s t : Bool) : merge (.vbool s) (.vbool t) = .vbool t :=
  merge_nonobj_right _ rfl

theorem mergeInto_nil_right (fs : List (String × Value)) : mergeInto fs [] = fs := by
  induction fs with
  | nil => exact mergeInto_nil []
  | cons p rest ih =>
    obtain ⟨q, w⟩ := p
    rw [@mergeInto_cons_none q [] w rest rfl, ih]

theorem merge_empty_override (fs : List (String × Value)) :
    merge (.vobj fs) (.vobj []) = .vobj fs := by
  rw [merge_obj, mergeF, mergeInto_nil_right]
  simp [newFields]

theorem getField_configOf (ofs : List (String × Value)) (k : String) :
    getField (configOf (.vobj ofs)) k =
      match lookup k defaultConfigFields with
      | some v => some (match lookup k ofs with | some w => merge v w | none => v)
      | none => lookup k ofs := by
  show getField (merge (.vobj defaultConfigFields) (.vobj ofs)) k = _
  rw [merge_obj]
  show lookup k (mergeF defaultConfigFields ofs) = _
  exact lookup_mergeF _ _ _

-- Claim theorems.

/-- C3: if the local override file is absent, configuration loading does not
fail — `loadLocal` is total and treats absence as the empty override — and
the merged configuration equals the default configuration:
`merge D (loadLocal none) = D` for every default mapping `D`, and in
particular the gulpfile's effective configuration is exactly its default
configuration. -/
theorem c3_absent_override_yields_defaults :
    (∀ fs : List (String × Value), merge (.vobj fs) (loadLocal none) = .vobj fs)
    ∧ effectiveConfig none = defaultConfig :=
  ⟨fun fs => merge_empty_override fs, merge_empty_override defaultConfigFields⟩

/-- C4: the configuration merge is a recursive deep merge — for a key
present in both the default mapping and the override mapping, the merged
configuration binds the key to the recursive merge of the two values, and
whenever the two values are not both mappings that recursive merge is just
the override's value. -/
theorem c4_deep_merge_policy (a b : List (String × Value)) (k : String)
    (v w : Value) (ha : lookup k a = some v) (hb : lookup k b = some w) :
    getField (merge (.vobj a) (.vobj b)) k = some (merge v w)
    ∧ ((isObjB v && isObjB w) = false → merge v w = w) := by
  constructor
  · rw [merge_obj]
    show lookup k (mergeF a b) = some (merge v w)
    rw [lookup_mergeF, ha, hb]
  · exact fun h => merge_nonobj h

/-- C4 witness: merging the override that flips `browsersync.open` into a
two-field default binds `browsersync` to the recursive merge of the two
nested objects, and a scalar-vs-scalar conflict is decided by the
override. -/
theorem c4_deep_merge_policy_witness :
    getField (merge
        (.vobj [("sourcemaps", .vbool true),
                ("browsersync", .vobj [("open", .vbool false)])])
        (.vobj [("browsersync", .vobj [("open", .vbool true)])]))
        "browsersync"
      = some (merge (.vobj [("open", .vbool false)])
          (.vobj [("open", .vbool true)]))
    ∧ ((isObjB (Value.vobj [("open", .vbool false)])
        && isObjB (Value.vobj [("open", .vbool true)])) = false →
        merge (.vobj [("open", .vbool false)]) (.vobj [("open", .vbool true)])
          = .vobj [("open", .vbool true)]) :=
  c4_deep_merge_policy _ _ "browsersync" _ _ rfl rfl

/-- C5: on well-formed overrides (objects with duplicate-free keys, as any
JS object literal is) the configuration merge is idempotent in the
override: merging the same override a second time changes nothing. -/
theorem c5_merge_idempotent (d o : Value) (h : wf o = true) :
    merge (merge d o) o = merge d o :=
  merge_absorb d o h

/-- C5 witness: idempotence at the gulpfile's default configuration and a
concrete two-key override. -/
theorem c5_merge_idempotent_witness :
    wf (.vobj [("sourcemaps", .vbool false), ("sassSource", .vstr "./styles")]) = true
    ∧ merge (merge defaultConfig
          (.vobj [("sourcemaps", .vbool false), ("sassSource", .vstr "./styles")]))
        (.vobj [("sourcemaps", .vbool false), ("sassSource", .vstr "./styles")])
      = merge defaultConfig
          (.vobj [("sourcemaps", .vbool false), ("sassSource", .vstr "./styles")]) :=
  ⟨by decide, c5_merge_idempotent defaultConfig _ (by decide)⟩

/-- C1, counterexample: in a configuration with `sourcemaps` disabled, all
three pipelines still contain the source-map finalization stage
(`sourcemaps.write`), so an accompanying map file is emitted even though
the option is off — refuting the claimed equivalence at this input. -/
theorem c1_sourcemaps_counterexample :
    getB (.vobj [("sourcemaps", .vbool false)]) "sourcemaps" = false
    ∧ hasSmWrite (appPipeline (.vobj [("sourcemaps", .vbool false)]) (.vobj [])) = true
    ∧ hasSmWrite (vendorsPipeline (.vobj [("sourcemaps", .vbool false)])) = true
    ∧ hasSmWrite (sassPipeline (.vobj [("sourcemaps", .vbool false)])) = true :=
  ⟨rfl, rfl, rfl, rfl⟩

/-- C1, amended: every run of the app, vendors, or sass pipeline contains
the source-map finalization stage unconditionally, whatever the
configuration; the `sourcemaps` option only sets the bundler-internal
`sourceMap` flag of the app and vendors rollup options (and the commonjs
plugin), and the sass pipeline ignores it entirely. -/
theorem c1_sourcemap_stage_unconditional (c localv : Value) :
    hasSmWrite (appPipeline c localv) = true
    ∧ hasSmWrite (vendorsPipeline c) = true
    ∧ hasSmWrite (sassPipeline c) = true
    ∧ (appRollupOptions c localv).sourceMap = getB c "sourcemaps"
    ∧ (vendorsRollupOptions c).sourceMap = getB c "sourcemaps" :=
  ⟨rfl, rfl, rfl, rfl, rfl⟩

/-- C2, counterexample: an override that replaces every source-directory
option does reroute the input globs, yet all three destination
directories remain the literals of the default table — so the output
destinations are not configuration-driven and the table's output values
are not merely defaults. -/
theorem c2_destinations_counterexample :
    srcGlobs (sassPipeline (configOf
        (.vobj [("sassSource", .vstr "./styles"),
                ("appSource", .vstr "./app2"),
                ("jsSource", .vstr "./js2")])))
      = ["./styles/**/*.scss"]
    ∧ destDirs (sassPipeline (configOf
        (.vobj [("sassSource", .vstr "./styles"),
                ("appSource", .vstr "./app2"),
                ("jsSource", .vstr "./js2")])))
      = ["./public/css"]
    ∧ destDirs (appPipeline (configOf
        (.vobj [("sassSource", .vstr "./styles"),
                ("appSource", .vstr "./app2"),
                ("jsSource", .vstr "./js2")])) (.vobj []))
      = ["./public/js"]
    ∧ destDirs (vendorsPipeline (configOf
        (.vobj [("sassSource", .vstr "./styles"),
                ("appSource", .vstr "./app2"),
                ("jsSource", .vstr "./js2")])))
      = ["./public/js"] := by
  refine ⟨?_, rfl, rfl, rfl⟩
  have hs : getS (configOf
      (.vobj [("sassSource", .vstr "./styles"),
              ("appSource", .vstr "./app2"),
              ("jsSource", .vstr "./js2")])) "sassSource" = "./styles" := by
    rw [getS, getField_configOf]
    show (match some (merge (Value.vstr "./resources/assets/sass")
          (Value.vstr "./styles")) with
        | some (.vstr s) => s
        | _ => "") = "./styles"
    rw [merge_vstr]
  show [getS (configOf (.vobj [("sassSource", .vstr "./styles"),
      ("appSource", .vstr "./app2"), ("jsSource", .vstr "./js2")]))
      "sassSource" ++ "/**/*.scss"] = ["./styles/**/*.scss"]
  rw [hs]
  rfl

/-- C2, amended: the input globs of the three pipelines are
configuration-driven — overriding the source-directory options changes
them — but the output destination directories are the fixed literals
`./public/js` and `./public/css` for every configuration, default or
overridden. -/
theorem c2_inputs_configurable_destinations_fixed :
    (∃ o1 o2 : Value, (appRollupOptions (configOf o1) (.vobj [])).entry
        ≠ (appRollupOptions (configOf o2) (.vobj [])).entry)
    ∧ (∃ o1 o2 : Value, (vendorsRollupOptions (configOf o1)).entry
        ≠ (vendorsRollupOptions (configOf o2)).entry)
    ∧ (∃ o1 o2 : Value, srcGlobs (sassPipeline (configOf o1))
        ≠ srcGlobs (sassPipeline (configOf o2)))
    ∧ (∀ o localv : Value, destDirs (appPipeline (configOf o) localv) = ["./public/js"])
    ∧ (∀ o : Value, destDirs (vendorsPipeline (configOf o)) = ["./public/js"])
    ∧ (∀ o : Value, destDirs (sassPipeline (configOf o)) = ["./public/css"]) := by
  have happ : getS (configOf (.vobj [("appSource", .vstr "./elsewhere")])) "appSource"
      = "./elsewhere" := by
    rw [getS, getField_configOf]
    show (match some (merge (Value.vstr "./resources/assets/app")
          (Value.vstr "./elsewhere")) with
        | some (.vstr s) => s
        | _ => "") = "./elsewhere"
    rw [merge_vstr]
  have hjs : getS (configOf (.vobj [("jsSource", .vstr "./elsewhere")])) "jsSource"
      = "./elsewhere" := by
    rw [getS, getField_configOf]
    show (match some (merge (Value.vstr "./resources/assets/js")
          (Value.vstr "./elsewhere")) with
        | some (.vstr s) => s
        | _ => "") = "./elsewhere"
    rw [merge_vstr]
  have hsass : getS (configOf (.vobj [("sassSource", .vstr "./elsewhere")])) "sassSource"
      = "./elsewhere" := by
    rw [getS, getField_configOf]
    show (match some (merge (Value.vstr "./resources/assets/sass")
          (Value.vstr "./elsewhere")) with
        | some (.vstr s) => s
        | _ => "") = "./elsewhere"
    rw [merge_vstr]
  refine ⟨⟨.vobj [], .vobj [("appSource", .vstr "./elsewhere")], ?_⟩,
    ⟨.vobj [], .vobj [("jsSource", .vstr "./elsewhere")], ?_⟩,
    ⟨.vobj [], .vobj [("sassSource", .vstr "./elsewhere")], ?_⟩,
    fun o localv => rfl, fun o => rfl, fun o => rfl⟩
  · have e1 : (appRollupOptions (configOf (.vobj [])) (.vobj [])).entry
        = "./resources/assets/app/app.js" := by
      show getS (configOf (.vobj [])) "appSource" ++ "/" ++ "app.js" = _
      rw [getS, getField_configOf]
      rfl
    have e2 : (appRollupOptions (configOf
          (.vobj [("appSource", .vstr "./elsewhere")])) (.vobj [])).entry
        = "./elsewhere/app.js" := by
      show getS (configOf (.vobj [("appSource", .vstr "./elsewhere")]))
          "appSource" ++ "/" ++ "app.js" = _
      rw [happ]
      rfl
    rw [e1, e2]
    decide
  · have e1 : (vendorsRollupOptions (configOf (.vobj []))).entry
        = "./resources/assets/js/vendors.js" := by
      show getS (configOf (.vobj [])) "jsSource" ++ "/" ++ "vendors.js" = _
      rw [getS, getField_configOf]
      rfl
    have e2 : (vendorsRollupOptions (configOf
          (.vobj [("jsSource", .vstr "./elsewhere")]))).entry
        = "./elsewhere/vendors.js" := by
      show getS (configOf (.vobj [("jsSource", .vstr "./elsewhere")]))
          "jsSource" ++ "/" ++ "vendors.js" = _
      rw [hjs]
      rfl
    rw [e1, e2]
    decide
  · have e1 : srcGlobs (sassPipeline (configOf (.vobj [])))
        = ["./resources/assets/sass/**/*.scss"] := by
      show [getS (configOf (.vobj [])) "sassSource" ++ "/**/*.scss"] = _
      rw [getS, getField_configOf]
      rfl
    have e2 : srcGlobs (sassPipeline (configOf
          (.vobj [("sassSource", .vstr "./elsewhere")])))
        = ["./elsewhere/**/*.scss"] := by
      show [getS (configOf (.vobj [("sassSource", .vstr "./elsewhere")]))
          "sassSource" ++ "/**/*.scss"] = _
      rw [hsass]
      rfl
    rw [e1, e2]
    decide

/-- C6: for every configuration, the sass pipeline applies, in this order,
sass compilation (at stage index 2, after the source read and the map
initialization), vendor-prefix expansion with the configured
`supportedBrowsers` list (index 4), minification with structural
restructuring disabled (index 6), source-map finalization (index 8), and
the write to the destination directory (index 9); each of those five
stages occurs exactly once in the pipeline. -/
theorem c6_sass_pipeline_stage_order (c : Value) :
    (sassPipeline c).get? 2 = some (.sassStage
      { includePaths := ["node_modules"], outputStyle := "compressed",
        precision := "2" })
    ∧ (sassPipeline c).get? 4 = some (.autoprefixerStage (getSL c "supportedBrowsers"))
    ∧ (sassPipeline c).get? 6 = some (.cssoStage false)
    ∧ (sassPipeline c).get? 8 = some (.sourcemapsWrite "./")
    ∧ (sassPipeline c).get? 9 = some (.gulpDest "./public/css")
    ∧ (sassPipeline c).countP
        (fun s => match s with | .sassStage _ => true | _ => false) = 1
    ∧ (sassPipeline c).countP
        (fun s => match s with | .autoprefixerStage _ => true | _ => false) = 1
    ∧ (sassPipeline c).countP
        (fun s => match s with | .cssoStage _ => true | _ => false) = 1
    ∧ (sassPipeline c).countP isSmWriteStage = 1
    ∧ (sassPipeline c).countP
        (fun s => match s with | .gulpDest _ => true | _ => false) = 1 :=
  ⟨rfl, rfl, rfl, rfl, rfl, rfl, rfl, rfl, rfl, rfl⟩

/-- C7: for every error object the handler logs exactly one formatted
diagnostic line, that line carries the error's message, the handler signals
the receiving stream to end rather than throwing, and in a run of sibling
pipelines each sibling's outcome is computed from its own error event
only, unaffected by this failure. -/
theorem c7_error_handler_behaviour (e : ErrObj) :
    (onError e).loggedLines.length = 1
    ∧ (∃ pre : String, (onError e).loggedLines = [pre ++ e.message])
    ∧ (onError e).endEmitted = true
    ∧ (onError e).thrown = false
    ∧ (∀ sibling : Option ErrObj,
        runSiblings [some e, sibling]
          = [.endedAfterError (onError e).loggedLines, runPipelineWith sibling]) :=
  ⟨rfl, ⟨"  ERROR " ++ " ", rfl⟩, rfl, rfl, fun _ => rfl⟩

/-- C8: a task is re-run on a change event exactly when some watch binding
whose globs match the changed path lists it, and concretely, under the
default configuration a change to a file matched only by the style-source
glob re-runs exactly the sass task — neither app nor vendors — while
app-source and vendor-source changes re-run exactly their own task. -/
theorem c8_watch_triggers_matching_tasks :
    (∀ (c : Value) (p t : String),
        t ∈ triggeredTasks c p ↔
          ∃ b ∈ watchBindings c, bindingMatches b p = true ∧ t ∈ b.run)
    ∧ triggeredTasks defaultConfig "./resources/assets/sass/site.scss" = ["sass"]
    ∧ triggeredTasks defaultConfig "./resources/assets/app/widget.js" = ["app"]
    ∧ triggeredTasks defaultConfig "./resources/assets/js/vendors.js" = ["vendors"] := by
  refine ⟨?_, by decide, by decide, by decide⟩
  intro c p t
  unfold triggeredTasks
  simp [List.mem_flatMap, List.mem_filter]
  tauto

/-- C9: the app pipeline's replace plugin maps the literal token
`ENV_LOCAL` to the JSON serialization of the entire local override object;
with no override file present that serialization is the empty object, and
substitution rewrites every occurrence of the token in a source text. -/
theorem c9_env_local_substitution (localv : Value) :
    (appRollupOptions (configOf localv) localv).plugins.get? 1
      = some (.replacePlugin
          { values := [("ENV_LOCAL", jsonStringify localv)],
            excludeGlob := "./node_modules/**" })
    ∧ jsonStringify (loadLocal none) = "\x7b\x7d"
    ∧ applyReplaceValues [("ENV_LOCAL", jsonStringify (loadLocal none))]
        "var env = ENV_LOCAL; use(ENV_LOCAL);"
      = "var env = \x7b\x7d; use(\x7b\x7d);" :=
  ⟨rfl, rfl, by decide⟩

/-- C10: the browser-reload watch binding observes the three literal output
paths whatever the configuration — the watched list is the same for every
configuration value — a change event reloads exactly at those three paths,
and a different emitted file such as a second stylesheet in `public/css`
never triggers a reload. -/
theorem c10_reload_binding_fixed_paths (c : Value) (p : String) :
    reloadWatchPaths c = reloadWatchPaths defaultConfig
    ∧ (reloadTriggered c p = true ↔
        (p = "./public/js/app.js" ∨ p = "./public/js/vendors.js"
          ∨ p = "./public/css/app.css"))
    ∧ reloadTriggered c "./public/css/other.css" = false := by
  refine ⟨rfl, ?_, rfl⟩
  show ([("./public/js/app.js" : String), "./public/js/vendors.js",
      "./public/css/app.css"].contains p = true) ↔ _
  simp [List.contains]
